import Mathlib

/-!
Shallow embedding of the synthetic ADS-B generator (motion_patterns.py and
server.py): motion-pattern kinematics, aircraft/manager views, and the
radar detection synthesizer, with theorems checking the specification's
claims against these definitions.

Real-number conventions: Python float arithmetic is embedded as exact real
arithmetic; `math.sin`/`cos`/`asin`/`sqrt`/`atan2` become their Mathlib
counterparts; the Python float `%` operator is floor-based modulus and is
embedded as `pymod`; `round(x, n)` becomes `roundTo n x`.
-/

noncomputable section

open Real

/-- Python `math.radians`: degrees to radians. -/
def radians (d : ℝ) : ℝ := d * (Real.pi / 180)

/-- Python `math.degrees`: radians to degrees. -/
def degrees (r : ℝ) : ℝ := r * (180 / Real.pi)

/-- Python float `%`: floor-based modulus, `x - y * ⌊x / y⌋`. -/
def pymod (x y : ℝ) : ℝ := x - y * ⌊x / y⌋

/-- Python `math.atan2 y x`, embedded as the argument of the complex number
`x + y*I`, which matches `atan2`'s range `(-π, π]` and quadrant rules. -/
def atan2 (y x : ℝ) : ℝ := Complex.arg ⟨x, y⟩

/-- Python `round(x, p)`: rounding to `p` decimal places. -/
def roundTo (p : ℕ) (x : ℝ) : ℝ := (round (x * 10 ^ p) : ℤ) / 10 ^ p

/-! ## Basic lemmas about the numeric helpers -/

theorem degrees_radians (x : ℝ) : degrees (radians x) = x := by
  unfold degrees radians
  field_simp

theorem pymod_eq_mul_fract (x y : ℝ) (hy : y ≠ 0) :
    pymod x y = y * Int.fract (x / y) := by
  unfold pymod
  rw [Int.fract]
  field_simp

theorem pymod_nonneg (x y : ℝ) (hy : 0 < y) : 0 ≤ pymod x y := by
  rw [pymod_eq_mul_fract x y hy.ne']
  exact mul_nonneg hy.le (Int.fract_nonneg _)

theorem pymod_lt (x y : ℝ) (hy : 0 < y) : pymod x y < y := by
  rw [pymod_eq_mul_fract x y hy.ne']
  calc y * Int.fract (x / y) < y * 1 :=
        (mul_lt_mul_left hy).mpr (Int.fract_lt_one _)
    _ = y := mul_one y

theorem pymod_eq_self (x y : ℝ) (h0 : 0 ≤ x) (hxy : x < y) : pymod x y = x := by
  unfold pymod
  have hy : 0 < y := lt_of_le_of_lt h0 hxy
  have : ⌊x / y⌋ = 0 := by
    rw [Int.floor_eq_zero_iff]
    constructor
    · exact div_nonneg h0 hy.le
    · rw [div_lt_one hy]; exact hxy
  rw [this]
  simp

theorem pymod_sub_int_mul (x y : ℝ) (k : ℤ) : pymod (x - y * k) y = pymod x y := by
  unfold pymod
  rcases eq_or_ne y 0 with hy | hy
  · simp [hy]
  · have : (x - y * k) / y = x / y - k := by field_simp
    rw [this, Int.floor_sub_int]
    push_cast
    ring

theorem pymod_add_left (a b y : ℝ) : pymod (pymod a y + b) y = pymod (a + b) y := by
  have h : pymod a y + b = a + b - y * ⌊a / y⌋ := by unfold pymod; ring
  rw [h, pymod_sub_int_mul]

theorem pymod_zero_left (y : ℝ) : pymod 0 y = 0 := by
  unfold pymod
  simp

/-! ## CircularMotion (motion_patterns.py lines 48-96) -/

structure CircularMotion where
  center_lat : ℝ
  center_lon : ℝ
  radius_deg : ℝ
  angular_speed : ℝ

def CircularMotion.get_position (m : CircularMotion) (current_time : ℝ) : ℝ × ℝ :=
  let theta := pymod (current_time * m.angular_speed) (2 * Real.pi)
  (m.center_lat + m.radius_deg * Real.cos theta,
   m.center_lon + m.radius_deg * Real.sin theta)

def CircularMotion.get_velocity (m : CircularMotion) (current_time : ℝ) : ℝ :=
  let theta := pymod (current_time * m.angular_speed) (2 * Real.pi)
  let lat := (m.get_position current_time).1
  let dlat_dt := -m.radius_deg * m.angular_speed * Real.sin theta
  let dlon_dt := m.radius_deg * m.angular_speed * Real.cos theta
  let dlat_dt_m := dlat_dt * 111320
  let dlon_dt_m := dlon_dt * 111320 * Real.cos (radians lat)
  let speed_ms := Real.sqrt (dlat_dt_m ^ 2 + dlon_dt_m ^ 2)
  speed_ms * 1.94384

def CircularMotion.get_heading (m : CircularMotion) (current_time : ℝ) : ℝ :=
  let theta := pymod (current_time * m.angular_speed) (2 * Real.pi)
  let lat := (m.get_position current_time).1
  let dlat_dt := -m.radius_deg * m.angular_speed * Real.sin theta
  let dlon_dt := m.radius_deg * m.angular_speed * Real.cos theta
  let dlat_dt_m := dlat_dt * 111320
  let dlon_dt_m := dlon_dt * 111320 * Real.cos (radians lat)
  let track_rad := atan2 dlon_dt_m dlat_dt_m
  pymod (degrees track_rad) 360

/-! ## SupersonicLinearMotion (motion_patterns.py lines 99-136) -/

structure SupersonicLinearMotion where
  start_lat : ℝ
  start_lon : ℝ
  mach_number : ℝ
  direction_rad : ℝ
  start_time : ℝ

def supersonicInit (start_lat start_lon mach_number direction_deg start_time : ℝ) :
    SupersonicLinearMotion :=
  ⟨start_lat, start_lon, mach_number, radians direction_deg, start_time⟩

def SupersonicLinearMotion.velocity_ms (m : SupersonicLinearMotion) : ℝ :=
  m.mach_number * 343.0

def SupersonicLinearMotion.get_position (m : SupersonicLinearMotion)
    (current_time : ℝ) : ℝ × ℝ :=
  let dt := current_time - m.start_time
  let dlat := (m.velocity_ms * dt / 111320) * Real.cos m.direction_rad
  let dlon := (m.velocity_ms * dt / 111320) * Real.sin m.direction_rad
  let lat := m.start_lat + dlat
  (lat, m.start_lon + dlon / Real.cos (radians lat))

def SupersonicLinearMotion.get_velocity (m : SupersonicLinearMotion)
    (_current_time : ℝ) : ℝ :=
  m.velocity_ms * 1.94384

def SupersonicLinearMotion.get_heading (m : SupersonicLinearMotion)
    (_current_time : ℝ) : ℝ :=
  pymod (degrees m.direction_rad) 360

/-! ## InstantDirectionChangeMotion (motion_patterns.py lines 139-242) -/

/-- One entry of `segment_positions`: the dict
`{time, lat, lon, direction}` built by `_compute_segments`. -/
structure IDCSeg where
  time : ℝ
  lat : ℝ
  lon : ℝ
  direction : ℝ

structure InstantDirectionChangeMotion where
  start_lat : ℝ
  start_lon : ℝ
  velocity_knots : ℝ
  velocity_ms : ℝ
  initial_direction_rad : ℝ
  change_interval : ℝ
  start_time : ℝ
  segment_positions : List IDCSeg

/-- Straight-line displacement shared by the piecewise patterns: from
`(lat0, lon0)` with constant heading `dir` and speed `speed_ms` for
`tau` seconds (the body of the position formulas in lines 209-215,
221-227, 300-306 and 311-317 of motion_patterns.py). -/
def linDisplace (lat0 lon0 dir speed_ms tau : ℝ) : ℝ × ℝ :=
  let dlat := (speed_ms * tau / 111320) * Real.cos dir
  let dlon := (speed_ms * tau / 111320) * Real.sin dir
  let lat := lat0 + dlat
  (lat, lon0 + dlon / Real.cos (radians lat))

/-- One iteration of the `for i in range(10)` loop of
`InstantDirectionChangeMotion._compute_segments`. -/
def idcNext (velocity_ms change_interval : ℝ) (s : IDCSeg) : IDCSeg :=
  let dlat := (velocity_ms * change_interval / 111320) * Real.cos s.direction
  let dlon := (velocity_ms * change_interval / 111320) * Real.sin s.direction
  let lat := s.lat + dlat
  let lon := s.lon + dlon / Real.cos (radians lat)
  ⟨s.time + change_interval, lat, lon, radians (pymod (degrees s.direction + 90) 360)⟩

/-- The list built by `_compute_segments`: the initial entry followed by
`n` applications of `idcNext`. -/
def idcSegs (velocity_ms change_interval : ℝ) : ℕ → IDCSeg → List IDCSeg
  | 0, s => [s]
  | n + 1, s =>
      s :: idcSegs velocity_ms change_interval n (idcNext velocity_ms change_interval s)

/-- Embeds `InstantDirectionChangeMotion.__init__` with an explicit `start_time`. -/
def idcInit (start_lat start_lon velocity_knots initial_direction_deg
    change_interval_sec start_time : ℝ) : InstantDirectionChangeMotion :=
  ⟨start_lat, start_lon, velocity_knots, velocity_knots * 0.514444,
   radians initial_direction_deg, change_interval_sec, start_time,
   idcSegs (velocity_knots * 0.514444) change_interval_sec 10
     ⟨0, start_lat, start_lon, radians initial_direction_deg⟩⟩

/-- The `for i in range(len(...) - 1)` search over consecutive entries in
`get_position`/`get_heading`: first entry `a` with `a.time <= dt < b.time`
for its successor `b`, `none` when the loop falls through. -/
def idcFind (dt : ℝ) : List IDCSeg → Option IDCSeg
  | a :: b :: rest =>
      if a.time ≤ dt ∧ dt < b.time then some a else idcFind dt (b :: rest)
  | _ => none

def InstantDirectionChangeMotion.get_position (m : InstantDirectionChangeMotion)
    (current_time : ℝ) : Option (ℝ × ℝ) :=
  let dt := current_time - m.start_time
  match idcFind dt m.segment_positions with
  | some seg => some (linDisplace seg.lat seg.lon seg.direction m.velocity_ms (dt - seg.time))
  | none =>
      (m.segment_positions.getLast?).map fun last =>
        linDisplace last.lat last.lon last.direction m.velocity_ms (dt - last.time)

def InstantDirectionChangeMotion.get_velocity (m : InstantDirectionChangeMotion)
    (_current_time : ℝ) : ℝ :=
  m.velocity_knots

def InstantDirectionChangeMotion.get_heading (m : InstantDirectionChangeMotion)
    (current_time : ℝ) : Option ℝ :=
  let dt := current_time - m.start_time
  match idcFind dt m.segment_positions with
  | some seg => some (pymod (degrees seg.direction) 360)
  | none =>
      (m.segment_positions.getLast?).map fun last => pymod (degrees last.direction) 360

/-! ## InstantAccelerationMotion (motion_patterns.py lines 245-330) -/

/-- One entry of `segments`: the dict
`{start_time, end_time, start_lat, start_lon, speed_knots, speed_ms}`. -/
structure IAMSeg where
  start_time : ℝ
  end_time : ℝ
  start_lat : ℝ
  start_lon : ℝ
  speed_knots : ℝ
  speed_ms : ℝ

structure InstantAccelerationMotion where
  start_lat : ℝ
  start_lon : ℝ
  direction_rad : ℝ
  speed_profile : List (ℝ × ℝ)
  start_time : ℝ
  segments : List IAMSeg

/-- The `for duration_sec, speed_knots in self.speed_profile` loop of
`InstantAccelerationMotion._compute_segments`, carrying
`(current_time, current_lat, current_lon)`. -/
def iamSegs (direction_rad : ℝ) : List (ℝ × ℝ) → ℝ → ℝ → ℝ → List IAMSeg
  | [], _, _, _ => []
  | (duration_sec, speed_knots) :: rest, t, lat, lon =>
      let speed_ms := speed_knots * 0.514444
      let dlat := (speed_ms * duration_sec / 111320) * Real.cos direction_rad
      let dlon := (speed_ms * duration_sec / 111320) * Real.sin direction_rad
      let lat2 := lat + dlat
      ⟨t, t + duration_sec, lat, lon, speed_knots, speed_ms⟩ ::
        iamSegs direction_rad rest (t + duration_sec) lat2
          (lon + dlon / Real.cos (radians lat2))

/-- Embeds `InstantAccelerationMotion.__init__` with an explicit `start_time`. -/
def iamInit (start_lat start_lon direction_deg : ℝ) (speed_profile : List (ℝ × ℝ))
    (start_time : ℝ) : InstantAccelerationMotion :=
  ⟨start_lat, start_lon, radians direction_deg, speed_profile, start_time,
   iamSegs (radians direction_deg) speed_profile 0 start_lat start_lon⟩

/-- The `for seg in self.segments` containment search: first segment with
`start_time <= dt < end_time`, `none` when the loop falls through. -/
def iamFind (dt : ℝ) : List IAMSeg → Option IAMSeg
  | [] => none
  | s :: rest =>
      if s.start_time ≤ dt ∧ dt < s.end_time then some s else iamFind dt rest

def InstantAccelerationMotion.get_position (m : InstantAccelerationMotion)
    (current_time : ℝ) : Option (ℝ × ℝ) :=
  let dt := current_time - m.start_time
  match iamFind dt m.segments with
  | some seg =>
      some (linDisplace seg.start_lat seg.start_lon m.direction_rad seg.speed_ms
        (dt - seg.start_time))
  | none =>
      (m.segments.getLast?).map fun last =>
        linDisplace last.start_lat last.start_lon m.direction_rad last.speed_ms
          (dt - last.end_time)

def InstantAccelerationMotion.get_velocity (m : InstantAccelerationMotion)
    (current_time : ℝ) : Option ℝ :=
  let dt := current_time - m.start_time
  match iamFind dt m.segments with
  | some seg => some seg.speed_knots
  | none => (m.segments.getLast?).map IAMSeg.speed_knots

def InstantAccelerationMotion.get_heading (m : InstantAccelerationMotion)
    (_current_time : ℝ) : ℝ :=
  pymod (degrees m.direction_rad) 360

/-! ## Aircraft and AircraftManager views (server.py lines 126-300)

The `Aircraft` class holds a duck-typed `motion_pattern` object with
`get_position`/`get_velocity`/`get_heading` methods; it is embedded here
as three functions of time, mirroring the interface `server.py` relies on. -/

structure Aircraft where
  icao_hex : String
  pos : ℝ → ℝ × ℝ
  vel : ℝ → ℝ
  hdg : ℝ → ℝ
  altitude_ft : ℝ
  flight_number : String
  is_anomalous : Bool
  has_adsb : Bool
  adsb_accurate : Bool
  adsb_gs_override : Option ℝ
  adsb_track_override : Option ℝ

/-- The dict returned by `Aircraft.get_data` when the aircraft has ADS-B. -/
structure AircraftData where
  hex : String
  lat : ℝ
  lon : ℝ
  alt_baro : ℝ
  alt_geom : ℝ
  gs : ℝ
  track : ℝ
  true_heading : ℝ
  flight : String
  seen_pos : ℝ

/-- Embeds `Aircraft.get_data` (server.py lines 151-177): `none` embeds Python's
`None` return for transponder-less aircraft. -/
def Aircraft.get_data (a : Aircraft) (current_time _timestamp_for_json : ℝ) :
    Option AircraftData :=
  let lat := (a.pos current_time).1
  let lon := (a.pos current_time).2
  let actual_gs_knots := a.vel current_time
  let actual_track_deg := a.hdg current_time
  if a.has_adsb = false then none
  else
    let gs_knots :=
      if a.adsb_accurate then actual_gs_knots
      else a.adsb_gs_override.getD actual_gs_knots
    let track_deg :=
      if a.adsb_accurate then actual_track_deg
      else a.adsb_track_override.getD actual_track_deg
    some ⟨a.icao_hex, roundTo 6 lat, roundTo 6 lon, a.altitude_ft,
      a.altitude_ft + 100, roundTo 1 gs_knots, roundTo 2 track_deg,
      roundTo 2 track_deg, a.flight_number, 0⟩

/-- Embeds `AircraftManager.get_all_aircraft_data` (server.py lines 281-283):
map then filter out the `None` entries. -/
def getAllAircraftData (aircraft_list : List Aircraft)
    (current_time timestamp_for_json : ℝ) : List AircraftData :=
  (aircraft_list.map fun a => a.get_data current_time timestamp_for_json).filterMap id

/-- One entry of the list built by `get_all_aircraft_for_radar`. -/
structure RadarRecord where
  hex : String
  lat : ℝ
  lon : ℝ
  alt_geom : ℝ
  gs : ℝ
  track : ℝ

/-- The dict appended for one aircraft in `get_all_aircraft_for_radar`. -/
def radarRecord (a : Aircraft) (current_time : ℝ) : RadarRecord :=
  ⟨a.icao_hex, (a.pos current_time).1, (a.pos current_time).2,
   a.altitude_ft + 100, a.vel current_time, a.hdg current_time⟩

/-- Embeds `AircraftManager.get_all_aircraft_for_radar` (server.py lines 285-300). -/
def getAllAircraftForRadar (aircraft_list : List Aircraft) (current_time : ℝ) :
    List RadarRecord :=
  aircraft_list.map fun a => radarRecord a current_time

/-! ## Detection synthesizer (server.py lines 305-364) -/

/-- The inner `distance` function of `calculate_bistatic_range`
(server.py lines 308-321): haversine surface distance with Earth radius
6371000 m, combined with the altitude difference by Pythagoras. -/
def distance3d (lat1 lon1 alt1 lat2 lon2 alt2 : ℝ) : ℝ :=
  let lat1_r := radians lat1
  let lon1_r := radians lon1
  let lat2_r := radians lat2
  let lon2_r := radians lon2
  let dlat := lat2_r - lat1_r
  let dlon := lon2_r - lon1_r
  let a := Real.sin (dlat / 2) ^ 2 +
    Real.cos lat1_r * Real.cos lat2_r * Real.sin (dlon / 2) ^ 2
  let surface_dist := 2 * 6371000 * Real.arcsin (Real.sqrt a)
  let alt_diff := alt2 - alt1
  Real.sqrt (surface_dist ^ 2 + alt_diff ^ 2)

/-- Embeds `calculate_bistatic_range` (server.py lines 305-326). -/
def calculate_bistatic_range (aircraft_lat aircraft_lon aircraft_alt
    tx_lat tx_lon tx_alt rx_lat rx_lon rx_alt : ℝ) : ℝ :=
  distance3d tx_lat tx_lon tx_alt aircraft_lat aircraft_lon aircraft_alt +
    distance3d aircraft_lat aircraft_lon aircraft_alt rx_lat rx_lon rx_alt

structure RadarConfig where
  id : String
  lat : ℝ
  lon : ℝ
  alt : ℝ
  frequency : ℝ

/-- A synthesized detection (server.py lines 352-361); the random
`detection_id` and the wall-clock `timestamp` are omitted, and Python's
run-randomized string `hash` is passed in as `hashFn`. -/
structure Detection where
  bistatic_range_m : ℝ
  doppler_hz : ℝ
  snr_db : ℝ
  radar_id : String
  frequency_hz : ℝ
  icao_hex : String

/-- The body of the detection loop in `generate_synthetic_detections`
(server.py lines 336-362) for one aircraft record. -/
def makeDetection (hashFn : String → ℤ) (tx_lat tx_lon tx_alt : ℝ)
    (aircraft : RadarRecord) (radar_config : RadarConfig) : Detection :=
  let bistatic_range := calculate_bistatic_range aircraft.lat aircraft.lon
    (aircraft.alt_geom * 0.3048) tx_lat tx_lon tx_alt
    radar_config.lat radar_config.lon radar_config.alt
  let velocity_ms := aircraft.gs * 0.514444
  let doppler_shift := velocity_ms * 2 * radar_config.frequency / 299792458
  ⟨roundTo 2 bistatic_range, roundTo 2 doppler_shift,
   15.0 + ((hashFn aircraft.hex) % 10 : ℤ), radar_config.id,
   radar_config.frequency, aircraft.hex⟩

/-- Embeds `generate_synthetic_detections` (server.py lines 328-364). -/
def generate_synthetic_detections (hashFn : String → ℤ) (tx_lat tx_lon tx_alt : ℝ)
    (aircraft_data_list : List RadarRecord) (radar_config : RadarConfig) :
    List Detection :=
  match aircraft_data_list with
  | [] => []
  | l => l.map fun a => makeDetection hashFn tx_lat tx_lon tx_alt a radar_config

/-! ## Formulas as the specification words them, for comparison -/

/-- Haversine great-circle surface distance with Earth radius 6371000 m,
written from the specification's wording of the bistatic-range formula. -/
def specSurfaceDist (lat1 lon1 lat2 lon2 : ℝ) : ℝ :=
  2 * 6371000 * Real.arcsin (Real.sqrt
    (Real.sin ((radians lat2 - radians lat1) / 2) ^ 2 +
      Real.cos (radians lat1) * Real.cos (radians lat2) *
        Real.sin ((radians lon2 - radians lon1) / 2) ^ 2))

/-- Point-to-point distance as the specification words it:
`sqrt(surface_dist^2 + (alt2 - alt1)^2)` with `surface_dist` the haversine
great-circle distance. -/
def specDistance (lat1 lon1 alt1 lat2 lon2 alt2 : ℝ) : ℝ :=
  Real.sqrt (specSurfaceDist lat1 lon1 lat2 lon2 ^ 2 + (alt2 - alt1) ^ 2)

/-! ## Claim theorems -/

/-- Claim C4: the synthesized bistatic range decomposes as
`distance(tx, aircraft) + distance(aircraft, rx)`, each distance being the
haversine surface distance (Earth radius 6371000 m) combined with the
altitude difference by Pythagoras, with the aircraft altitude taken as its
geometric altitude in feet times 0.3048; the stored `bistatic_range_m`
field is that sum rounded to two decimal places. -/
theorem bistatic_range_decomposition (hashFn : String → ℤ)
    (tx_lat tx_lon tx_alt : ℝ) (aircraft : RadarRecord) (radar_config : RadarConfig) :
    calculate_bistatic_range aircraft.lat aircraft.lon (aircraft.alt_geom * 0.3048)
        tx_lat tx_lon tx_alt radar_config.lat radar_config.lon radar_config.alt =
      specDistance tx_lat tx_lon tx_alt
          aircraft.lat aircraft.lon (aircraft.alt_geom * 0.3048) +
        specDistance aircraft.lat aircraft.lon (aircraft.alt_geom * 0.3048)
          radar_config.lat radar_config.lon radar_config.alt ∧
    (makeDetection hashFn tx_lat tx_lon tx_alt aircraft radar_config).bistatic_range_m =
      roundTo 2 (specDistance tx_lat tx_lon tx_alt
          aircraft.lat aircraft.lon (aircraft.alt_geom * 0.3048) +
        specDistance aircraft.lat aircraft.lon (aircraft.alt_geom * 0.3048)
          radar_config.lat radar_config.lon radar_config.alt) :=
  ⟨rfl, rfl⟩

/-- Claim C5: the synthesized Doppler shift is
`2 * frequency_hz * v / 299792458` with `v` the ground speed in knots
times 0.514444; the stored `doppler_hz` field is that value rounded to two
decimal places. -/
theorem doppler_formula (hashFn : String → ℤ) (tx_lat tx_lon tx_alt : ℝ)
    (aircraft : RadarRecord) (radar_config : RadarConfig) :
    (makeDetection hashFn tx_lat tx_lon tx_alt aircraft radar_config).doppler_hz =
      roundTo 2 (2 * radar_config.frequency * (aircraft.gs * 0.514444) / 299792458) := by
  show roundTo 2 (aircraft.gs * 0.514444 * 2 * radar_config.frequency / 299792458) =
    roundTo 2 (2 * radar_config.frequency * (aircraft.gs * 0.514444) / 299792458)
  congr 1
  ring

/-- Claim C7 (amended): for every CircularMotion and every time, the
Euclidean offset of `get_position t` from the center equals the absolute
value of the configured radius. -/
theorem circular_offset_eq_abs_radius (m : CircularMotion) (t : ℝ) :
    Real.sqrt (((m.get_position t).1 - m.center_lat) ^ 2 +
      ((m.get_position t).2 - m.center_lon) ^ 2) = |m.radius_deg| := by
  unfold CircularMotion.get_position
  simp only
  have key : (m.center_lat +
        m.radius_deg * Real.cos (pymod (t * m.angular_speed) (2 * Real.pi)) -
        m.center_lat) ^ 2 +
      (m.center_lon +
        m.radius_deg * Real.sin (pymod (t * m.angular_speed) (2 * Real.pi)) -
        m.center_lon) ^ 2 = m.radius_deg ^ 2 := by
    linear_combination m.radius_deg ^ 2 *
      Real.sin_sq_add_cos_sq (pymod (t * m.angular_speed) (2 * Real.pi))
  rw [key, Real.sqrt_sq_eq_abs]

/-- A circular pattern with negative configured radius, refuting claim C7
as stated. -/
def exCircNeg : CircularMotion := ⟨0, 0, -1, 0⟩

/-- Claim C7 counterexample: with `radius_deg = -1` the offset of the
position at time 0 from the center is `1`, not the configured `-1`. -/
theorem circular_offset_counterexample :
    exCircNeg.radius_deg = -1 ∧
    Real.sqrt (((exCircNeg.get_position 0).1 - exCircNeg.center_lat) ^ 2 +
      ((exCircNeg.get_position 0).2 - exCircNeg.center_lon) ^ 2) = 1 ∧
    (1 : ℝ) ≠ -1 := by
  refine ⟨rfl, ?_, by norm_num⟩
  have h1 : (exCircNeg.get_position 0).1 = -1 := by
    norm_num [CircularMotion.get_position, exCircNeg, pymod_zero_left]
  have h2 : (exCircNeg.get_position 0).2 = 0 := by
    norm_num [CircularMotion.get_position, exCircNeg, pymod_zero_left]
  rw [h1, h2]
  norm_num [exCircNeg, Real.sqrt_one]

/-- Claim C3: an aircraft without ADS-B yields `None` from `get_data`,
hence contributes nothing to `get_all_aircraft_data`, while
`get_all_aircraft_for_radar` still carries its record with true hex,
position, speed and track. -/
theorem transponder_filtering (a : Aircraft) (l1 l2 : List Aircraft) (t ts : ℝ)
    (h : a.has_adsb = false) :
    a.get_data t ts = none ∧
    getAllAircraftData (l1 ++ a :: l2) t ts = getAllAircraftData (l1 ++ l2) t ts ∧
    getAllAircraftForRadar (l1 ++ a :: l2) t =
      getAllAircraftForRadar l1 t ++ radarRecord a t :: getAllAircraftForRadar l2 t ∧
    (radarRecord a t).hex = a.icao_hex ∧
    (radarRecord a t).lat = (a.pos t).1 ∧ (radarRecord a t).lon = (a.pos t).2 ∧
    (radarRecord a t).gs = a.vel t ∧ (radarRecord a t).track = a.hdg t := by
  have hnone : a.get_data t ts = none := by
    simp [Aircraft.get_data, h]
  refine ⟨hnone, ?_, ?_, rfl, rfl, rfl, rfl, rfl⟩
  · unfold getAllAircraftData
    simp [hnone]
  · unfold getAllAircraftForRadar
    simp

/-- A concrete transponder-less aircraft. -/
def exNoAdsb : Aircraft :=
  ⟨"abc123", fun _ => (1, 2), fun _ => 3, fun _ => 4, 1000, "SYN001  ",
    false, false, true, none, none⟩

/-- Claim C3 witness at a concrete aircraft and time. -/
theorem transponder_filtering_witness :
    exNoAdsb.has_adsb = false ∧
    (exNoAdsb.get_data 0 0 = none ∧
     getAllAircraftData ([] ++ exNoAdsb :: []) 0 0 = getAllAircraftData ([] ++ []) 0 0 ∧
     getAllAircraftForRadar ([] ++ exNoAdsb :: []) 0 =
       getAllAircraftForRadar [] 0 ++ radarRecord exNoAdsb 0 :: getAllAircraftForRadar [] 0 ∧
     (radarRecord exNoAdsb 0).hex = exNoAdsb.icao_hex ∧
     (radarRecord exNoAdsb 0).lat = (exNoAdsb.pos 0).1 ∧
     (radarRecord exNoAdsb 0).lon = (exNoAdsb.pos 0).2 ∧
     (radarRecord exNoAdsb 0).gs = exNoAdsb.vel 0 ∧
     (radarRecord exNoAdsb 0).track = exNoAdsb.hdg 0) :=
  ⟨rfl, transponder_filtering exNoAdsb [] [] 0 0 rfl⟩

theorem atan2_pos_zero (d : ℝ) (hd : 0 < d) : atan2 d 0 = Real.pi / 2 := by
  unfold atan2
  rw [Complex.arg_eq_pi_div_two_iff]
  exact ⟨rfl, hd⟩

theorem pymod_ninety : pymod (90 : ℝ) 360 = 90 :=
  pymod_eq_self 90 360 (by norm_num) (by norm_num)

theorem degrees_pi_div_two : degrees (Real.pi / 2) = 90 := by
  unfold degrees
  field_simp
  ring

/-- The spec's concrete circular scenario: center (-34.9810, 138.7081),
radius 0.05 degrees, angular speed 0.01 rad/s. -/
def exCirc : CircularMotion := ⟨-34.9810, 138.7081, 0.05, 0.01⟩

theorem exCirc_cos_lat_pos : 0 < Real.cos (radians (-34.9310)) := by
  refine Real.cos_pos_of_mem_Ioo ⟨?_, ?_⟩
  · unfold radians
    nlinarith [Real.pi_pos]
  · unfold radians
    nlinarith [Real.pi_pos]

/-- Claim C6: the concrete circular scenario at time 0 yields latitude
-34.9310, longitude 138.7081, heading 90 degrees and positive speed. -/
theorem circular_concrete_scenario :
    (exCirc.get_position 0).1 = -34.9310 ∧
    (exCirc.get_position 0).2 = 138.7081 ∧
    exCirc.get_heading 0 = 90 ∧
    0 < exCirc.get_velocity 0 := by
  have hpos1 : (exCirc.get_position 0).1 = -34.9310 := by
    norm_num [CircularMotion.get_position, exCirc, pymod_zero_left]
  have hpos2 : (exCirc.get_position 0).2 = 138.7081 := by
    norm_num [CircularMotion.get_position, exCirc, pymod_zero_left]
  have hcos : (0 : ℝ) < Real.cos (radians (-34.9310)) := exCirc_cos_lat_pos
  norm_num at hcos
  refine ⟨hpos1, hpos2, ?_, ?_⟩
  · unfold CircularMotion.get_heading
    simp only [hpos1]
    norm_num [exCirc, pymod_zero_left]
    rw [atan2_pos_zero _ (mul_pos (by norm_num) hcos)]
    rw [degrees_pi_div_two, pymod_ninety]
  · unfold CircularMotion.get_velocity
    simp only [hpos1]
    norm_num [exCirc, pymod_zero_left]
    exact pow_pos (mul_pos (by norm_num) hcos) 2

/-- Claim C10: every motion pattern variant returns a heading in
`[0, 360)`; for InstantDirectionChangeMotion, whose lookup can in general
fail, every heading value it does return lies in `[0, 360)`. -/
theorem heading_in_range :
    (∀ (m : CircularMotion) (t : ℝ), 0 ≤ m.get_heading t ∧ m.get_heading t < 360) ∧
    (∀ (m : SupersonicLinearMotion) (t : ℝ),
      0 ≤ m.get_heading t ∧ m.get_heading t < 360) ∧
    (∀ (m : InstantDirectionChangeMotion) (t h : ℝ),
      m.get_heading t = some h → 0 ≤ h ∧ h < 360) ∧
    (∀ (m : InstantAccelerationMotion) (t : ℝ),
      0 ≤ m.get_heading t ∧ m.get_heading t < 360) := by
  have h360 : (0 : ℝ) < 360 := by norm_num
  refine ⟨fun m t => ⟨pymod_nonneg _ _ h360, pymod_lt _ _ h360⟩,
    fun m t => ⟨pymod_nonneg _ _ h360, pymod_lt _ _ h360⟩, ?_,
    fun m t => ⟨pymod_nonneg _ _ h360, pymod_lt _ _ h360⟩⟩
  intro m t h hh
  simp only [InstantDirectionChangeMotion.get_heading] at hh
  cases hf : idcFind (t - m.start_time) m.segment_positions with
  | some seg =>
      rw [hf] at hh
      simp only [Option.some.injEq] at hh
      rw [← hh]
      exact ⟨pymod_nonneg _ _ h360, pymod_lt _ _ h360⟩
  | none =>
      rw [hf] at hh
      simp only [Option.map_eq_some'] at hh
      obtain ⟨last, -, hlast⟩ := hh
      rw [← hlast]
      exact ⟨pymod_nonneg _ _ h360, pymod_lt _ _ h360⟩

/-- A concrete supersonic pattern. -/
def exSup : SupersonicLinearMotion := supersonicInit 0 0 2 0 0

/-- A concrete direction-change pattern: start (0, 0), 100 knots, initial
heading 0, 5-second segments, start time 0. -/
def exIDC : InstantDirectionChangeMotion := idcInit 0 0 100 0 5 0

/-- A concrete acceleration pattern with a single 100-knot segment. -/
def exIAM : InstantAccelerationMotion := iamInit 0 0 0 [(5, 100)] 0

theorem exIDC_heading_at_zero : exIDC.get_heading 0 = some 0 := by
  simp only [exIDC, idcInit, idcSegs, InstantDirectionChangeMotion.get_heading]
  norm_num [idcFind, idcNext, degrees_radians, pymod_zero_left]

/-- Claim C10 witness at concrete patterns and times. -/
theorem heading_in_range_witness :
    (0 ≤ exCircNeg.get_heading 0 ∧ exCircNeg.get_heading 0 < 360) ∧
    (0 ≤ exSup.get_heading 0 ∧ exSup.get_heading 0 < 360) ∧
    (exIDC.get_heading 0 = some 0 ∧ (0 ≤ (0 : ℝ) ∧ (0 : ℝ) < 360)) ∧
    (0 ≤ exIAM.get_heading 0 ∧ exIAM.get_heading 0 < 360) :=
  ⟨heading_in_range.1 exCircNeg 0, heading_in_range.2.1 exSup 0,
    ⟨exIDC_heading_at_zero, heading_in_range.2.2.1 exIDC 0 0 exIDC_heading_at_zero⟩,
    heading_in_range.2.2.2 exIAM 0⟩

/-! ## Structure of the precomputed direction-change segment list -/

theorem idcSegs_cons (vms ci : ℝ) (n : ℕ) (s : IDCSeg) :
    ∃ tl, idcSegs vms ci n s = s :: tl := by
  cases n with
  | zero => exact ⟨[], rfl⟩
  | succ m => exact ⟨idcSegs vms ci m (idcNext vms ci s), rfl⟩

theorem idcNext_time (vms ci : ℝ) (s : IDCSeg) :
    (idcNext vms ci s).time = s.time + ci := rfl

theorem idcNext_iterate_time (vms ci : ℝ) (s : IDCSeg) (i : ℕ) :
    ((idcNext vms ci)^[i] s).time = s.time + i * ci := by
  induction i with
  | zero => simp
  | succ j ih =>
      rw [Function.iterate_succ_apply', idcNext_time, ih]
      push_cast
      ring

theorem idcSegs_length (vms ci : ℝ) (n : ℕ) (s : IDCSeg) :
    (idcSegs vms ci n s).length = n + 1 := by
  induction n generalizing s with
  | zero => rfl
  | succ m ih => simp [idcSegs, ih]

theorem idcSegs_getLast (vms ci : ℝ) (n : ℕ) (s : IDCSeg) :
    (idcSegs vms ci n s).getLast? = some ((idcNext vms ci)^[n] s) := by
  induction n generalizing s with
  | zero => rfl
  | succ m ih =>
      obtain ⟨tl, htl⟩ := idcSegs_cons vms ci m (idcNext vms ci s)
      rw [idcSegs, htl, List.getLast?_cons_cons, ← htl, ih,
        Function.iterate_succ_apply]

theorem idcSegs_mem (vms ci : ℝ) (n : ℕ) (s x : IDCSeg)
    (hx : x ∈ idcSegs vms ci n s) : ∃ i, i ≤ n ∧ x = (idcNext vms ci)^[i] s := by
  induction n generalizing s with
  | zero =>
      simp only [idcSegs, List.mem_singleton] at hx
      exact ⟨0, le_refl 0, by simp [hx]⟩
  | succ m ih =>
      rw [idcSegs] at hx
      rcases List.mem_cons.mp hx with h | h
      · exact ⟨0, Nat.zero_le _, by simp [h]⟩
      · obtain ⟨i, hi, hx2⟩ := ih (idcNext vms ci s) h
        exact ⟨i + 1, Nat.succ_le_succ hi,
          by rw [hx2, Function.iterate_succ_apply]⟩

theorem idcFind_eq_none_of_lt (dt : ℝ) (l : List IDCSeg)
    (h : ∀ s ∈ l, dt < s.time) : idcFind dt l = none := by
  induction l with
  | nil => rfl
  | cons a tl ih =>
      cases tl with
      | nil => rfl
      | cons b rest =>
          simp only [idcFind]
          rw [if_neg]
          · exact ih fun s hs => h s (List.mem_cons_of_mem a hs)
          · intro hc
            exact absurd hc.1 (not_le.mpr (h a (List.mem_cons_self a _)))

theorem idcFind_segs_boundary (vms ci : ℝ) (hci : 0 < ci) (n i : ℕ) (s : IDCSeg)
    (dt : ℝ) (hin : i < n) (h1 : s.time + i * ci ≤ dt)
    (h2 : dt < s.time + (i + 1) * ci) :
    idcFind dt (idcSegs vms ci n s) = some ((idcNext vms ci)^[i] s) := by
  induction n generalizing i s with
  | zero => exact absurd hin (Nat.not_lt_zero i)
  | succ m ih =>
      obtain ⟨tl, htl⟩ := idcSegs_cons vms ci m (idcNext vms ci s)
      rw [idcSegs, htl]
      cases i with
      | zero =>
          simp only [idcFind]
          rw [if_pos]
          · simp
          · refine ⟨by simpa using h1, ?_⟩
            rw [idcNext_time]
            simpa using h2
      | succ j =>
          push_cast at h1 h2
          simp only [idcFind]
          rw [if_neg]
          · rw [← htl,
              ih j (idcNext vms ci s) (Nat.lt_of_succ_lt_succ hin)
                (by rw [idcNext_time]; linarith)
                (by rw [idcNext_time]; linarith),
              ← Function.iterate_succ_apply]
          · intro hc
            have hb := hc.2
            rw [idcNext_time] at hb
            have hj : (0 : ℝ) ≤ (j : ℝ) * ci :=
              mul_nonneg (Nat.cast_nonneg j) hci.le
            linarith

theorem idcFind_eq_none_of_ge (vms ci : ℝ) (hci : 0 < ci) (n : ℕ) (s : IDCSeg)
    (dt : ℝ) (h : s.time + n * ci ≤ dt) :
    idcFind dt (idcSegs vms ci n s) = none := by
  induction n generalizing s with
  | zero => rfl
  | succ m ih =>
      obtain ⟨tl, htl⟩ := idcSegs_cons vms ci m (idcNext vms ci s)
      rw [idcSegs, htl]
      rw [Nat.cast_succ] at h
      simp only [idcFind]
      rw [if_neg]
      · rw [← htl]
        apply ih
        rw [idcNext_time]
        linarith
      · intro hc
        have hb := hc.2
        rw [idcNext_time] at hb
        have hm : (0 : ℝ) ≤ (m : ℝ) * ci :=
          mul_nonneg (Nat.cast_nonneg m) hci.le
        linarith

/-- Heading returned at the start of precomputed boundary `i` (0 to 10). -/
theorem idc_heading_at_boundary (lat lon v d0 ci st : ℝ) (hci : 0 < ci)
    (i : ℕ) (hi : i ≤ 10) :
    (idcInit lat lon v d0 ci st).get_heading (st + i * ci) =
      some (pymod (degrees
        (((idcNext (v * 0.514444) ci)^[i] ⟨0, lat, lon, radians d0⟩).direction)) 360) := by
  have hdt : st + i * ci - st = i * ci := by ring
  simp only [InstantDirectionChangeMotion.get_heading, idcInit, hdt]
  rcases Nat.lt_or_ge i 10 with hlt | hge
  · rw [idcFind_segs_boundary (v * 0.514444) ci hci 10 i _ _ hlt
      (by simp) (by push_cast; simp; linarith)]
  · have h10 : i = 10 := le_antisymm hi hge
    subst h10
    rw [idcFind_eq_none_of_ge (v * 0.514444) ci hci 10 _ _ (by simp),
      idcSegs_getLast, Option.map_some']

/-- Claim C8: the direction-change pattern precomputes exactly 10
boundaries after the initial segment, and the heading at the start of
segment `i + 1` is the heading at the start of segment `i` plus 90,
modulo 360. -/
theorem direction_change_law (lat lon v d0 ci st : ℝ) (hci : 0 < ci)
    (i : ℕ) (hi : i < 10) :
    (idcInit lat lon v d0 ci st).segment_positions.length = 11 ∧
    (idcInit lat lon v d0 ci st).get_heading (st + ((i : ℝ) + 1) * ci) =
      Option.map (fun h => pymod (h + 90) 360)
        ((idcInit lat lon v d0 ci st).get_heading (st + i * ci)) := by
  constructor
  · exact idcSegs_length _ _ 10 _
  · have hb1 := idc_heading_at_boundary lat lon v d0 ci st hci (i + 1)
      (Nat.succ_le_of_lt hi)
    push_cast at hb1
    rw [hb1, idc_heading_at_boundary lat lon v d0 ci st hci i hi.le,
      Option.map_some']
    congr 1
    rw [Function.iterate_succ_apply']
    have hdir : (idcNext (v * 0.514444) ci
        ((idcNext (v * 0.514444) ci)^[i] ⟨0, lat, lon, radians d0⟩)).direction =
        radians (pymod (degrees
          (((idcNext (v * 0.514444) ci)^[i] ⟨0, lat, lon, radians d0⟩).direction) + 90)
          360) := rfl
    rw [hdir, degrees_radians,
      pymod_eq_self _ _ (pymod_nonneg _ _ (by norm_num)) (pymod_lt _ _ (by norm_num)),
      pymod_add_left]

/-- Claim C8 witness at the first boundary of a concrete pattern. -/
theorem direction_change_law_witness :
    (0 : ℝ) < 5 ∧ (0 : ℕ) < 10 ∧
    ((idcInit 0 0 100 0 5 0).segment_positions.length = 11 ∧
     (idcInit 0 0 100 0 5 0).get_heading (0 + (((0 : ℕ) : ℝ) + 1) * 5) =
       Option.map (fun h => pymod (h + 90) 360)
         ((idcInit 0 0 100 0 5 0).get_heading (0 + ((0 : ℕ) : ℝ) * 5))) :=
  ⟨by norm_num, by norm_num,
    direction_change_law 0 0 100 0 5 0 (by norm_num) 0 (by norm_num)⟩

/-! ## Structure of the precomputed acceleration segment list -/

theorem iamSegs_start_time_ge (dir : ℝ) (profile : List (ℝ × ℝ)) :
    ∀ (t0 lat lon : ℝ), (∀ p ∈ profile, 0 ≤ p.1) →
      ∀ s ∈ iamSegs dir profile t0 lat lon, t0 ≤ s.start_time := by
  induction profile with
  | nil =>
      intro t0 lat lon h s hs
      simp [iamSegs] at hs
  | cons p rest ih =>
      intro t0 lat lon h s hs
      obtain ⟨dur, spd⟩ := p
      simp only [iamSegs] at hs
      rcases List.mem_cons.mp hs with h1 | h1
      · rw [h1]
      · have hd : 0 ≤ dur := h (dur, spd) (List.mem_cons_self _ _)
        have h2 := ih (t0 + dur) _ _
          (fun q hq => h q (List.mem_cons_of_mem _ hq)) s h1
        linarith

theorem iamSegs_speed_ms (dir : ℝ) (profile : List (ℝ × ℝ)) :
    ∀ (t0 lat lon : ℝ) (s : IAMSeg), s ∈ iamSegs dir profile t0 lat lon →
      s.speed_ms = s.speed_knots * 0.514444 := by
  induction profile with
  | nil =>
      intro t0 lat lon s hs
      simp [iamSegs] at hs
  | cons p rest ih =>
      intro t0 lat lon s hs
      obtain ⟨dur, spd⟩ := p
      simp only [iamSegs] at hs
      rcases List.mem_cons.mp hs with h1 | h1
      · rw [h1]
      · exact ih _ _ _ s h1

theorem iamFind_eq_none_of_lt (dt : ℝ) (l : List IAMSeg)
    (h : ∀ s ∈ l, dt < s.start_time) : iamFind dt l = none := by
  induction l with
  | nil => rfl
  | cons a tl ih =>
      simp only [iamFind]
      rw [if_neg]
      · exact ih fun s hs => h s (List.mem_cons_of_mem a hs)
      · intro hc
        exact absurd hc.1 (not_le.mpr (h a (List.mem_cons_self a _)))

theorem iamFind_at_index (dir : ℝ) (profile : List (ℝ × ℝ)) :
    ∀ (t0 lat lon dt : ℝ) (k : ℕ) (seg : IAMSeg),
      (∀ p ∈ profile, 0 ≤ p.1) →
      (iamSegs dir profile t0 lat lon).get? k = some seg →
      seg.start_time ≤ dt → dt < seg.end_time →
      iamFind dt (iamSegs dir profile t0 lat lon) = some seg := by
  induction profile with
  | nil =>
      intro t0 lat lon dt k seg h hget
      simp [iamSegs] at hget
  | cons p rest ih =>
      intro t0 lat lon dt k seg h hget h1 h2
      obtain ⟨dur, spd⟩ := p
      simp only [iamSegs] at hget ⊢
      cases k with
      | zero =>
          rw [List.get?_cons_zero, Option.some.injEq] at hget
          subst hget
          rw [iamFind, if_pos ⟨h1, h2⟩]
      | succ j =>
          rw [List.get?_cons_succ] at hget
          have hmem : seg ∈ iamSegs dir rest (t0 + dur)
              (lat + spd * 0.514444 * dur / 111320 * Real.cos dir)
              (lon + spd * 0.514444 * dur / 111320 * Real.sin dir /
                Real.cos (radians (lat + spd * 0.514444 * dur / 111320 * Real.cos dir))) :=
            List.get?_mem hget
          have hst := iamSegs_start_time_ge dir rest (t0 + dur) _ _
            (fun q hq => h q (List.mem_cons_of_mem _ hq)) seg hmem
          rw [iamFind, if_neg]
          · exact ih _ _ _ dt j seg
              (fun q hq => h q (List.mem_cons_of_mem _ hq)) hget h1 h2
          · intro hc
            have hb := hc.2
            simp only at hb
            linarith

/-! ## Claims about construction and before-start queries -/

/-- Claim C2 counterexample: constructing an InstantAccelerationMotion
with an empty speed profile succeeds and silently yields an empty segment
list (queries then return nothing), and constructing an
InstantDirectionChangeMotion with change interval -1 succeeds and yields
the usual 11 segment entries; neither construction fails. -/
theorem construction_no_validation_counterexample :
    (iamInit 0 0 0 [] 0).segments = [] ∧
    (iamInit 0 0 0 [] 0).get_position 0 = none ∧
    (idcInit 0 0 100 0 (-1) 0).segment_positions.length = 11 :=
  ⟨rfl, rfl, idcSegs_length _ _ 10 _⟩

/-- Claim C2 (amended): construction performs no validation. An empty
speed profile is accepted and produces an empty segment list, with
queries returning no value; a non-positive change interval is accepted
and produces the usual 11 precomputed entries, whose boundary times are
all non-positive (degenerate, non-increasing). -/
theorem construction_no_validation (lat lon d0 st v di ci st2 t : ℝ)
    (hci : ci ≤ 0) :
    (iamInit lat lon d0 [] st).segments = [] ∧
    (iamInit lat lon d0 [] st).get_position t = none ∧
    (iamInit lat lon d0 [] st).get_velocity t = none ∧
    (idcInit lat lon v di ci st2).segment_positions.length = 11 ∧
    (∀ s ∈ (idcInit lat lon v di ci st2).segment_positions, s.time ≤ 0) := by
  refine ⟨rfl, rfl, rfl, idcSegs_length _ _ 10 _, ?_⟩
  intro s hs
  obtain ⟨i, -, hx⟩ := idcSegs_mem _ _ 10 _ s hs
  rw [hx, idcNext_iterate_time]
  have hle : (i : ℝ) * ci ≤ 0 :=
    mul_nonpos_iff.mpr (Or.inl ⟨Nat.cast_nonneg i, hci⟩)
  simpa using hle

/-- Claim C2 witness at concrete construction parameters. -/
theorem construction_no_validation_witness :
    (-1 : ℝ) ≤ 0 ∧
    ((iamInit 0 0 0 [] 0).segments = [] ∧
     (iamInit 0 0 0 [] 0).get_position 3 = none ∧
     (iamInit 0 0 0 [] 0).get_velocity 3 = none ∧
     (idcInit 0 0 100 45 (-1) 0).segment_positions.length = 11 ∧
     (∀ s ∈ (idcInit 0 0 100 45 (-1) 0).segment_positions, s.time ≤ 0)) :=
  ⟨by norm_num, construction_no_validation 0 0 0 0 100 45 (-1) 0 3 (by norm_num)⟩

theorem idcFind_before_start (vms ci dt : ℝ) (hci : 0 ≤ ci) (hdt : dt < 0)
    (s0 : IDCSeg) (h0 : s0.time = 0) (n : ℕ) :
    idcFind dt (idcSegs vms ci n s0) = none := by
  apply idcFind_eq_none_of_lt
  intro s hs
  obtain ⟨i, -, hx⟩ := idcSegs_mem vms ci n s0 s hs
  rw [hx, idcNext_iterate_time, h0]
  have hge : (0 : ℝ) ≤ (i : ℝ) * ci := mul_nonneg (Nat.cast_nonneg i) hci
  linarith

/-- Claim C1 counterexample: for the acceleration pattern with profile
[(5, 100), (5, 0)] queried 1 second before its start, `get_velocity`
returns the final segment's speed 0, not segment 0's speed 100. -/
theorem before_start_counterexample :
    (iamInit 0 0 0 [(5, 100), (5, 0)] 0).get_velocity (-1) = some 0 ∧
    (iamInit 0 0 0 [(5, 100), (5, 0)] 0).segments.map IAMSeg.speed_knots =
      [100, 0] ∧
    (0 : ℝ) ≠ 100 := by
  refine ⟨?_, ?_, by norm_num⟩
  · norm_num [iamInit, iamSegs, iamFind, InstantAccelerationMotion.get_velocity]
  · norm_num [iamInit, iamSegs]

/-- Claim C1 (amended): for a query time strictly before the pattern's
start, both piecewise variants fall through the segment search and use
the FINAL precomputed segment, extrapolating linearly backward from its
stored position with its heading and speed; velocity and heading likewise
come from the final segment (for InstantDirectionChange the velocity is
the constant configured speed, for InstantAcceleration the heading is the
constant configured direction). -/
theorem before_start_uses_last_segment :
    (∀ lat lon v d0 ci st t : ℝ, 0 ≤ ci → t < st →
      (idcInit lat lon v d0 ci st).get_position t =
        some (linDisplace
          (((idcNext (v * 0.514444) ci)^[10] ⟨0, lat, lon, radians d0⟩).lat)
          (((idcNext (v * 0.514444) ci)^[10] ⟨0, lat, lon, radians d0⟩).lon)
          (((idcNext (v * 0.514444) ci)^[10] ⟨0, lat, lon, radians d0⟩).direction)
          (v * 0.514444)
          (t - st - ((idcNext (v * 0.514444) ci)^[10] ⟨0, lat, lon, radians d0⟩).time)) ∧
      (idcInit lat lon v d0 ci st).get_heading t =
        some (pymod (degrees
          (((idcNext (v * 0.514444) ci)^[10] ⟨0, lat, lon, radians d0⟩).direction)) 360) ∧
      (idcInit lat lon v d0 ci st).get_velocity t = v) ∧
    (∀ (lat lon d0 : ℝ) (profile : List (ℝ × ℝ)) (st t : ℝ),
      (∀ p ∈ profile, 0 ≤ p.1) → t < st →
      (iamInit lat lon d0 profile st).get_position t =
        ((iamInit lat lon d0 profile st).segments.getLast?).map
          (fun last => linDisplace last.start_lat last.start_lon (radians d0)
            last.speed_ms (t - st - last.end_time)) ∧
      (iamInit lat lon d0 profile st).get_velocity t =
        ((iamInit lat lon d0 profile st).segments.getLast?).map IAMSeg.speed_knots ∧
      (iamInit lat lon d0 profile st).get_heading t = pymod (degrees (radians d0)) 360) := by
  constructor
  · intro lat lon v d0 ci st t hci ht
    have hnone := idcFind_before_start (v * 0.514444) ci (t - st) hci
      (by linarith) ⟨0, lat, lon, radians d0⟩ rfl 10
    refine ⟨?_, ?_, rfl⟩
    · simp only [InstantDirectionChangeMotion.get_position, idcInit]
      rw [hnone, idcSegs_getLast, Option.map_some']
    · simp only [InstantDirectionChangeMotion.get_heading, idcInit]
      rw [hnone, idcSegs_getLast, Option.map_some']
  · intro lat lon d0 profile st t hdur ht
    have hnone : iamFind (t - st)
        (iamSegs (radians d0) profile 0 lat lon) = none := by
      apply iamFind_eq_none_of_lt
      intro s hs
      have := iamSegs_start_time_ge (radians d0) profile 0 lat lon hdur s hs
      linarith
    refine ⟨?_, ?_, rfl⟩
    · simp only [InstantAccelerationMotion.get_position, iamInit]
      rw [hnone]
    · simp only [InstantAccelerationMotion.get_velocity, iamInit]
      rw [hnone]

/-- Claim C1 witness: velocity components of the amended claim at
concrete patterns queried 1 second before start. -/
theorem before_start_uses_last_segment_witness :
    (0 : ℝ) ≤ 5 ∧ (-1 : ℝ) < 0 ∧
    (idcInit 0 0 100 0 5 0).get_velocity (-1) = 100 ∧
    (iamInit 0 0 0 [(5, 100)] 0).get_velocity (-1) =
      ((iamInit 0 0 0 [(5, 100)] 0).segments.getLast?).map IAMSeg.speed_knots := by
  refine ⟨by norm_num, by norm_num, ?_, ?_⟩
  · exact (before_start_uses_last_segment.1 0 0 100 0 5 0 (-1)
      (by norm_num) (by norm_num)).2.2
  · exact (before_start_uses_last_segment.2 0 0 0 [(5, 100)] 0 (-1)
      (by intro p hp; simp at hp; rw [hp]; norm_num) (by norm_num)).2.1

/-- Claim C9: a zero-speed segment of the acceleration pattern holds the
position constant at that segment's start position for every query time
inside the segment's half-open interval. -/
theorem stationary_hold (lat lon d0 st : ℝ) (profile : List (ℝ × ℝ))
    (hdur : ∀ p ∈ profile, 0 ≤ p.1) (k : ℕ) (seg : IAMSeg)
    (hseg : (iamInit lat lon d0 profile st).segments.get? k = some seg)
    (hzero : seg.speed_knots = 0) (t : ℝ)
    (h1 : seg.start_time ≤ t - st) (h2 : t - st < seg.end_time) :
    (iamInit lat lon d0 profile st).get_position t =
      some (seg.start_lat, seg.start_lon) := by
  have hfind : iamFind (t - st) (iamSegs (radians d0) profile 0 lat lon) = some seg :=
    iamFind_at_index (radians d0) profile 0 lat lon (t - st) k seg hdur hseg h1 h2
  have hms : seg.speed_ms = seg.speed_knots * 0.514444 :=
    iamSegs_speed_ms (radians d0) profile 0 lat lon seg (List.get?_mem hseg)
  simp only [InstantAccelerationMotion.get_position, iamInit]
  rw [hfind]
  simp only [linDisplace, hms, hzero]
  norm_num

/-- Claim C9 witness: a single zero-speed segment holds (1, 2). -/
theorem stationary_hold_witness :
    (iamInit 1 2 0 [(5, 0)] 0).segments.get? 0 =
      some ⟨0, 0 + 5, 1, 2, 0, 0 * 0.514444⟩ ∧
    (iamInit 1 2 0 [(5, 0)] 0).get_position 1 = some (1, 2) := by
  refine ⟨rfl, ?_⟩
  exact stationary_hold 1 2 0 0 [(5, 0)]
    (by intro p hp; simp at hp; rw [hp]; norm_num) 0
    ⟨0, 0 + 5, 1, 2, 0, 0 * 0.514444⟩ rfl rfl 1 (by norm_num) (by norm_num)

end
